import Mathlib

/-!
Formal model of the iagon-mcp-server batch-upload and pagination logic.

The definitions below are a shallow embedding of the TypeScript source:
constants and formatBytes come from src/constants.ts, the glob-to-regex
filter and the two batch-tool loops come from src/tools/file-tools.ts
(registerBatchTools, getFilesFromDirectory), the client-side upload and
page derivation come from src/services/iagon-client.ts (IagonClient), and
the pagination validator comes from src/schemas/input-schemas.ts
(PaginationSchema).  The local filesystem is modelled as a lookup function
from paths to optional byte sizes, and the remote gateway as an injected
function, so that the purely local control flow can be reasoned about.
-/

namespace IagonMcp

/-! ### Constants (src/constants.ts) -/

/-- FILE_SIZE_LIMIT = 40 * 1024 * 1024 bytes (the hard per-item limit). -/
def FILE_SIZE_LIMIT : Nat := 40 * 1024 * 1024

/-- DEFAULT_PAGE_LIMIT = 20. -/
def DEFAULT_PAGE_LIMIT : Nat := 20

/-- MAX_PAGE_LIMIT = 100. -/
def MAX_PAGE_LIMIT : Nat := 100

/-- Model of formatBytes from src/constants.ts.  The source computes
i = floor(log bytes / log 1024) with doubles and renders
(bytes / 1024 ^ i).toFixed(2) with trailing zeros stripped by parseFloat.
Here the same quantity is computed with exact natural arithmetic
(half-up rounding of the two-decimal mantissa).  No claim depends on the
exact rendered digits, only on which string is embedded in messages. -/
def formatBytes (bytes : Nat) : String :=
  if bytes = 0 then "0 Bytes"
  else
    let i := Nat.log 1024 bytes
    let sizes := ["Bytes", "KB", "MB", "GB", "TB"]
    let denom := 1024 ^ i
    let scaled := (bytes * 100 + denom / 2) / denom
    let intPart := scaled / 100
    let frac := scaled % 100
    let fracStr :=
      if frac = 0 then ""
      else if frac % 10 = 0 then "." ++ toString (frac / 10)
      else "." ++ (if frac < 10 then "0" else "") ++ toString frac
    toString intPart ++ fracStr ++ " " ++ sizes.getD i ""

/-! ### String containment -/

/-- The string pat occurs as a contiguous substring of s. -/
def ContainsStr (s pat : String) : Prop :=
  ∃ a b : String, s = a ++ pat ++ b

/-! ### Glob pattern filter (getFilesFromDirectory, src/tools/file-tools.ts)

The source builds a JavaScript regular expression from the user pattern by
replacing every star with dot-star and every question mark with a dot, and
then calls regex.test(name) with the case-insensitive flag.  The dot of the
original pattern is not escaped, so it stays a regex any-character atom, and
test performs an unanchored search.  The token translation below mirrors
exactly that for patterns made of stars, question marks, dots and ordinary
literal characters (the only regex metacharacters the translation can
produce for such patterns). -/

/-- One atom of the regex produced by the pattern translation. -/
inductive GlobTok where
  | star
  | anyChar
  | lit (c : Char)
deriving DecidableEq

/-- Translate the user pattern into regex atoms: star becomes dot-star,
question mark becomes dot, an (unescaped) dot stays dot, and any other
character is a case-insensitive literal (stored lowercased). -/
def globTokens (pattern : String) : List GlobTok :=
  pattern.data.map fun c =>
    if c = '*' then GlobTok.star
    else if c = '?' then GlobTok.anyChar
    else if c = '.' then GlobTok.anyChar
    else GlobTok.lit c.toLower

/-- Fuel-indexed regex matcher: does the atom list match a prefix of s
(the rest of s may be nonempty, since test is unanchored on the right)?
Each recursive call strictly decreases the combined length of the two
lists, so any fuel above that sum makes the cutoff branch unreachable. -/
def tokensMatchFuel : Nat → List GlobTok → List Char → Bool
  | 0, _, _ => false
  | _ + 1, [], _ => true
  | f + 1, GlobTok.star :: ts, [] => tokensMatchFuel f ts []
  | f + 1, GlobTok.star :: ts, c :: s =>
      tokensMatchFuel f ts (c :: s) || tokensMatchFuel f (GlobTok.star :: ts) s
  | f + 1, GlobTok.anyChar :: ts, _ :: s => tokensMatchFuel f ts s
  | _ + 1, GlobTok.anyChar :: _, [] => false
  | f + 1, GlobTok.lit c :: ts, d :: s => (d.toLower = c) && tokensMatchFuel f ts s
  | _ + 1, GlobTok.lit _ :: _, [] => false

/-- Anchored-at-start match with adequate fuel. -/
def tokensMatch (ts : List GlobTok) (s : List Char) : Bool :=
  tokensMatchFuel (ts.length + s.length + 1) ts s

/-- Unanchored search, like JavaScript regex.test: try every start position. -/
def regexTest (toks : List GlobTok) : List Char → Bool
  | [] => tokensMatch toks []
  | c :: s => tokensMatch toks (c :: s) || regexTest toks s

/-- The complete pattern filter applied to one file base name, as the source
does: build the regex from the pattern and test the name case-insensitively. -/
def matchesPattern (pattern name : String) : Bool :=
  regexTest (globTokens pattern) name.data

/-- The source only filters when a pattern was supplied. -/
def patternOk : Option String → String → Bool
  | none, _ => true
  | some pat, name => matchesPattern pat name

/-! ### Result model (src/types.ts) -/

/-- UploadResult returned by IagonClient.uploadFile. -/
structure UploadResult where
  success : Bool
  fileId : Option String
  fileName : String
  fileSize : Nat
  message : String
deriving DecidableEq

/-- The status string of one entry of BulkOperationResult.results. -/
inductive ItemStatus where
  | success
  | failed
  | skipped
deriving DecidableEq

/-- One entry of BulkOperationResult.results. -/
structure ItemResult where
  path : String
  status : ItemStatus
  message : String
  fileId : Option String
deriving DecidableEq

/-- BulkOperationResult from src/types.ts. -/
@[ext] structure BulkOperationResult where
  total : Nat
  successful : Nat
  failed : Nat
  skipped : Nat
  results : List ItemResult
deriving DecidableEq

/-- Default entry used only to give List.getD a second argument. -/
def dummyItem : ItemResult :=
  { path := "", status := ItemStatus.failed, message := "", fileId := none }

/-- Skip message of the batch tools: Exceeds 40MB limit (formatted size). -/
def skipMessage (size : Nat) : String :=
  "Exceeds 40MB limit (" ++ formatBytes size ++ ")"

/-- Success message of the batch tools: Uploaded (formatted size). -/
def uploadedMessage (size : Nat) : String :=
  "Uploaded (" ++ formatBytes size ++ ")"

/-! ### Batch Transfer Orchestrator (registerBatchTools, src/tools/file-tools.ts)

The local filesystem is a lookup fs from paths to optional byte sizes
(none when existsSync is false, some size for the statSync size), and the
gateway is an injected up function standing for client.uploadFile.  Each
step returns the updated accumulator together with the list of paths on
which up has been invoked, so that gateway-call claims are expressible. -/

/-- One iteration of the iagon_bulk_upload loop (existence check, size
check, upload), acting on the accumulated result and call list. -/
def bulkStep (fs : String → Option Nat) (up : String → UploadResult)
    (acc : BulkOperationResult × List String) (filePath : String) :
    BulkOperationResult × List String :=
  match fs filePath with
  | none =>
      ({ acc.1 with
          failed := acc.1.failed + 1,
          results := acc.1.results ++
            [{ path := filePath, status := ItemStatus.failed,
               message := "File not found", fileId := none }] }, acc.2)
  | some size =>
      if FILE_SIZE_LIMIT < size then
        ({ acc.1 with
            skipped := acc.1.skipped + 1,
            results := acc.1.results ++
              [{ path := filePath, status := ItemStatus.skipped,
                 message := skipMessage size, fileId := none }] }, acc.2)
      else
        let u := up filePath
        if u.success then
          ({ acc.1 with
              successful := acc.1.successful + 1,
              results := acc.1.results ++
                [{ path := filePath, status := ItemStatus.success,
                   message := uploadedMessage size, fileId := u.fileId }] },
           acc.2 ++ [filePath])
        else
          ({ acc.1 with
              failed := acc.1.failed + 1,
              results := acc.1.results ++
                [{ path := filePath, status := ItemStatus.failed,
                   message := u.message, fileId := none }] },
           acc.2 ++ [filePath])

/-- The iagon_bulk_upload handler: total is fixed to the number of input
paths up front, counters start at zero, and every path is processed. -/
def runBulk (fs : String → Option Nat) (up : String → UploadResult)
    (paths : List String) : BulkOperationResult × List String :=
  paths.foldl (bulkStep fs up)
    ({ total := paths.length, successful := 0, failed := 0, skipped := 0,
       results := [] }, [])

/-- One iteration of the iagon_upload_directory loop.  Enumerated files
exist (the directory tree is immutable during the run), so the stat size is
a total function of the path; there is no existence branch in this loop. -/
def dirStep (sizeFn : String → Nat) (up : String → UploadResult)
    (acc : BulkOperationResult × List String) (filePath : String) :
    BulkOperationResult × List String :=
  let size := sizeFn filePath
  if FILE_SIZE_LIMIT < size then
    ({ acc.1 with
        skipped := acc.1.skipped + 1,
        results := acc.1.results ++
          [{ path := filePath, status := ItemStatus.skipped,
             message := skipMessage size, fileId := none }] }, acc.2)
  else
    let u := up filePath
    if u.success then
      ({ acc.1 with
          successful := acc.1.successful + 1,
          results := acc.1.results ++
            [{ path := filePath, status := ItemStatus.success,
               message := uploadedMessage size, fileId := u.fileId }] },
       acc.2 ++ [filePath])
    else
      ({ acc.1 with
          failed := acc.1.failed + 1,
          results := acc.1.results ++
            [{ path := filePath, status := ItemStatus.failed,
               message := u.message, fileId := none }] },
       acc.2 ++ [filePath])

/-- The orchestrator loop of iagon_upload_directory over enumerated files. -/
def runDir (sizeFn : String → Nat) (up : String → UploadResult)
    (files : List String) : BulkOperationResult × List String :=
  files.foldl (dirStep sizeFn up)
    ({ total := files.length, successful := 0, failed := 0, skipped := 0,
       results := [] }, [])

/-- The outcome the bulk loop body records for a single candidate path:
this is the denotation of one bulkStep, used to characterize the fold. -/
def itemOutcome (fs : String → Option Nat) (up : String → UploadResult)
    (p : String) : ItemResult :=
  match fs p with
  | none => { path := p, status := ItemStatus.failed,
              message := "File not found", fileId := none }
  | some size =>
      if FILE_SIZE_LIMIT < size then
        { path := p, status := ItemStatus.skipped,
          message := skipMessage size, fileId := none }
      else
        let u := up p
        if u.success then
          { path := p, status := ItemStatus.success,
            message := uploadedMessage size, fileId := u.fileId }
        else
          { path := p, status := ItemStatus.failed,
            message := u.message, fileId := none }

/-- Whether the bulk loop reaches the upload call for path p: the file
exists and its size is within the limit. -/
def shouldCall (fs : String → Option Nat) (p : String) : Bool :=
  match fs p with
  | none => false
  | some size => decide (size ≤ FILE_SIZE_LIMIT)

/-- The outcome the directory loop body records for a single file. -/
def itemOutcomeDir (sizeFn : String → Nat) (up : String → UploadResult)
    (p : String) : ItemResult :=
  let size := sizeFn p
  if FILE_SIZE_LIMIT < size then
    { path := p, status := ItemStatus.skipped,
      message := skipMessage size, fileId := none }
  else
    let u := up p
    if u.success then
      { path := p, status := ItemStatus.success,
        message := uploadedMessage size, fileId := u.fileId }
    else
      { path := p, status := ItemStatus.failed,
        message := u.message, fileId := none }

/-- Whether the directory loop reaches the upload call for file p. -/
def shouldCallDir (sizeFn : String → Nat) (p : String) : Bool :=
  decide (sizeFn p ≤ FILE_SIZE_LIMIT)

/-- Occurrences of a given status among recorded outcomes. -/
def countStatus (st : ItemStatus) (rs : List ItemResult) : Nat :=
  rs.countP fun r => r.status == st

/-! ### Pagination (IagonClient.listFiles and searchFiles) -/

/-- File metadata from the remote API (src/types.ts, IagonFile). -/
structure IagonFile where
  id : String
  name : String
  size : Nat
  mimeType : Option String
  folderId : Option String
  createdAt : String
  updatedAt : String
  nodeId : Option String
deriving DecidableEq

/-- PaginatedResponse from src/types.ts. -/
structure PaginatedResponse where
  items : List IagonFile
  total : Nat
  count : Nat
  offset : Nat
  hasMore : Bool
  nextOffset : Option Nat
deriving DecidableEq

/-- The raw JSON body of a list or search response: the items array may sit
under the key files or the key items, and total may be absent.  An absent
field is none; a JavaScript empty array is truthy, so some [] is kept. -/
structure RawListResponse where
  files : Option (List IagonFile)
  items : Option (List IagonFile)
  total : Option Nat
deriving DecidableEq

/-- data.files or data.items or the empty array, with JavaScript truthiness:
only a missing field falls through (an empty array is truthy). -/
def rawItems (raw : RawListResponse) : List IagonFile :=
  match raw.files with
  | some l => l
  | none =>
      match raw.items with
      | some l => l
      | none => []

/-- Page derivation of IagonClient.listFiles: data.total or items.length
(a total of 0 is falsy in JavaScript and also falls back), count, hasMore
and nextOffset exactly as in the source. -/
def listFiles (raw : RawListResponse) (offset : Nat) : PaginatedResponse :=
  let items := rawItems raw
  let total :=
    match raw.total with
    | some t => if t = 0 then items.length else t
    | none => items.length
  { items := items, total := total, count := items.length, offset := offset,
    hasMore := decide (offset + items.length < total),
    nextOffset :=
      if offset + items.length < total then some (offset + items.length)
      else none }

/-- Page derivation of IagonClient.searchFiles; the source duplicates the
same computation as listFiles. -/
def searchFiles (raw : RawListResponse) (offset : Nat) : PaginatedResponse :=
  let items := rawItems raw
  let total :=
    match raw.total with
    | some t => if t = 0 then items.length else t
    | none => items.length
  { items := items, total := total, count := items.length, offset := offset,
    hasMore := decide (offset + items.length < total),
    nextOffset :=
      if offset + items.length < total then some (offset + items.length)
      else none }

/-! ### Pagination input validation (PaginationSchema, src/schemas/input-schemas.ts) -/

/-- The zod limit field: integer, at least 1, at most MAX_PAGE_LIMIT,
defaulting to DEFAULT_PAGE_LIMIT when omitted. -/
def parseLimit : Option Int → Except String Int
  | none => Except.ok (DEFAULT_PAGE_LIMIT : Int)
  | some l =>
      if l < 1 then Except.error "Limit must be at least 1"
      else if (MAX_PAGE_LIMIT : Int) < l then Except.error "Limit cannot exceed 100"
      else Except.ok l

/-- The zod offset field: integer, at least 0, defaulting to 0. -/
def parseOffset : Option Int → Except String Int
  | none => Except.ok 0
  | some o =>
      if o < 0 then Except.error "Offset cannot be negative"
      else Except.ok o

/-- PaginationSchema validation of both fields; any violation yields a
validation error without touching the remote service. -/
def validatePagination (limit offset : Option Int) : Except String (Int × Int) :=
  match parseLimit limit with
  | Except.error e => Except.error e
  | Except.ok l =>
      match parseOffset offset with
      | Except.error e => Except.error e
      | Except.ok o => Except.ok (l, o)

/-- The iagon_list_files pipeline: schema validation happens before the
handler runs, and only a validated request reaches the injected fetch
(the remote GET on /files). -/
def listFilesTool (folderId : Option String) (limit offset : Option Int)
    (fetch : Option String → Int → Int → RawListResponse) :
    Except String PaginatedResponse :=
  match validatePagination limit offset with
  | Except.error e => Except.error e
  | Except.ok lo => Except.ok (listFiles (fetch folderId lo.1 lo.2) lo.2.toNat)

/-- The iagon_search_files pipeline, analogous to listFilesTool. -/
def searchFilesTool (query : String) (limit offset : Option Int)
    (fetch : String → Int → Int → RawListResponse) :
    Except String PaginatedResponse :=
  match validatePagination limit offset with
  | Except.error e => Except.error e
  | Except.ok lo => Except.ok (searchFiles (fetch query lo.1 lo.2) lo.2.toNat)

/-- Discriminator for a rejected request. -/
def isErrorResult : Except String PaginatedResponse → Bool
  | Except.error _ => true
  | Except.ok _ => false

/-! ### Single-file client upload (IagonClient.uploadFile) -/

/-- Simplified POSIX basename, the last slash-separated component. -/
def basename (p : String) : String :=
  (p.splitOn "/").getLastD p

/-- JavaScript a or-else b on strings, where the empty string is falsy. -/
def jsOrString : Option String → Option String → Option String
  | some s, b => if s = "" then b else some s
  | none, b => b

/-- Outcome of the multipart POST to /files/upload: a response carrying the
optional id and fileId fields, or a failure already classified by
handleError into a message string. -/
inductive PostOutcome where
  | posted (respId : Option String) (respFileId : Option String)
  | postError (message : String)

/-- remotePath or basename(localPath), with the empty string falsy. -/
def chosenFileName (remotePath : Option String) (localPath : String) : String :=
  match remotePath with
  | some r => if r = "" then basename localPath else r
  | none => basename localPath

/-- Message of the client-side existence check. -/
def notFoundMessage (localPath : String) : String :=
  "File not found: " ++ localPath

/-- Message of the client-side size check. -/
def oversizeMessage (fileName : String) (size : Nat) : String :=
  "File " ++ fileName ++ " (" ++ formatBytes size ++
    ") exceeds Iagon\x27s 40MB limit. Consider compressing the video or splitting it into smaller segments."

/-- Message of a successful upload. -/
def successMessage (fileName : String) (size : Nat) : String :=
  "Successfully uploaded " ++ fileName ++ " (" ++ formatBytes size ++ ")"

/-- IagonClient.uploadFile: existence check, size check, then the POST.
The second component records whether the POST was attempted at all. -/
def clientUploadFile (fs : String → Option Nat) (post : String → PostOutcome)
    (localPath : String) (remotePath : Option String) : UploadResult × Bool :=
  match fs localPath with
  | none =>
      ({ success := false, fileId := none, fileName := basename localPath,
         fileSize := 0, message := notFoundMessage localPath }, false)
  | some size =>
      let fileName := chosenFileName remotePath localPath
      if FILE_SIZE_LIMIT < size then
        ({ success := false, fileId := none, fileName := fileName,
           fileSize := size, message := oversizeMessage fileName size }, false)
      else
        match post localPath with
        | PostOutcome.posted respId respFileId =>
            ({ success := true, fileId := jsOrString respId respFileId,
               fileName := fileName, fileSize := size,
               message := successMessage fileName size }, true)
        | PostOutcome.postError m =>
            ({ success := false, fileId := none, fileName := fileName,
               fileSize := size, message := m }, true)

/-! ### Directory enumeration and the iagon_upload_directory tool -/

/-- A directory entry of the local tree: a regular file with its byte size,
or a subdirectory with its own entries. -/
inductive FsEntry where
  | file (name : String) (size : Nat)
  | dir (name : String) (entries : List FsEntry)

/-- getFilesFromDirectory from src/tools/file-tools.ts: walk the entries of
one directory in order, descend into subdirectories only when recursive is
true, apply the pattern filter to file base names only, and join paths with
a slash. -/
def getFilesFromDirectory (dirPath : String) (recursive : Bool)
    (pattern : Option String) : List FsEntry → List String
  | [] => []
  | FsEntry.dir name sub :: rest =>
      (if recursive then
        getFilesFromDirectory (dirPath ++ "/" ++ name) recursive pattern sub
       else []) ++ getFilesFromDirectory dirPath recursive pattern rest
  | FsEntry.file name _ :: rest =>
      (if patternOk pattern name then [dirPath ++ "/" ++ name] else []) ++
        getFilesFromDirectory dirPath recursive pattern rest

/-- What the local path given to iagon_upload_directory resolves to:
nothing, a non-directory, or a directory with its entries. -/
inductive DirNode where
  | missing
  | nondir
  | dir (entries : List FsEntry)

/-- The caller-visible response of iagon_upload_directory: an error text for
a bad root, a bare explanatory note when no files were found, or the
rendered batch report. -/
inductive DirOutput where
  | errorText (msg : String)
  | noFiles (msg : String)
  | report (r : BulkOperationResult)

/-- Whether the response carries a batch summary. -/
def DirOutput.isReport : DirOutput → Bool
  | DirOutput.report _ => true
  | _ => false

/-- The note returned when enumeration finds nothing. -/
def noFilesNote (localDirectory : String) (pattern : Option String) : String :=
  "No files found in " ++ localDirectory ++
    (match pattern with
     | some p => " matching pattern \"" ++ p ++ "\""
     | none => "")

/-- The iagon_upload_directory handler: root checks, enumeration, the
empty-enumeration short-circuit, then the orchestrator loop.  The second
component again lists the paths passed to the gateway. -/
def uploadDirectoryTool (node : DirNode) (localDirectory : String)
    (recursive : Bool) (pattern : Option String) (sizeFn : String → Nat)
    (up : String → UploadResult) : DirOutput × List String :=
  match node with
  | DirNode.missing =>
      (DirOutput.errorText ("Directory not found: " ++ localDirectory), [])
  | DirNode.nondir =>
      (DirOutput.errorText ("Path is not a directory: " ++ localDirectory), [])
  | DirNode.dir entries =>
      let files := getFilesFromDirectory localDirectory recursive pattern entries
      if files.length = 0 then
        (DirOutput.noFiles (noFilesNote localDirectory pattern), [])
      else
        let out := runDir sizeFn up files
        (DirOutput.report out.1, out.2)

/-- A stub gateway used to instantiate theorems at concrete inputs. -/
def upStub : String → UploadResult := fun p =>
  { success := true, fileId := some "id-1", fileName := p, fileSize := 1,
    message := "ok" }

/-- A concrete two-candidate filesystem: one file exactly at the limit, one
file one byte over it. -/
def fsBoundary : String → Option Nat := fun p =>
  if p = "big.mp4" then some (FILE_SIZE_LIMIT + 1) else some FILE_SIZE_LIMIT

/-- A filesystem on which no path exists. -/
def fsNone : String → Option Nat := fun _ => none

/-- A filesystem on which every path is one byte over the limit. -/
def fsOver : String → Option Nat := fun _ => some (FILE_SIZE_LIMIT + 1)

/-- A remote stub for the list endpoint. -/
def fetchStubL : Option String → Int → Int → RawListResponse :=
  fun _ _ _ => { files := none, items := none, total := none }

/-- A remote stub for the search endpoint. -/
def fetchStubS : String → Int → Int → RawListResponse :=
  fun _ _ _ => { files := none, items := none, total := none }

/-- A stub for the upload POST. -/
def postStub : String → PostOutcome :=
  fun _ => PostOutcome.posted (some "id-1") none

/-! ## Helper lemmas -/

theorem strAppend_assoc (a b c : String) : a ++ b ++ c = a ++ (b ++ c) := by
  cases a with
  | mk da =>
    cases b with
    | mk db =>
      cases c with
      | mk dc =>
        show String.mk (da ++ db ++ dc) = String.mk (da ++ (db ++ dc))
        rw [List.append_assoc]

theorem containsStr_intro (s a pat b : String) (h : s = a ++ (pat ++ b)) :
    ContainsStr s pat := by
  refine ⟨a, b, ?_⟩
  rw [strAppend_assoc]
  exact h

theorem skipMessage_contains_limit (n : Nat) :
    ContainsStr (skipMessage n) "limit" := by
  apply containsStr_intro _ "Exceeds 40MB " "limit" (" (" ++ formatBytes n ++ ")")
  show "Exceeds 40MB limit (" ++ formatBytes n ++ ")" =
    "Exceeds 40MB " ++ ("limit" ++ (" (" ++ formatBytes n ++ ")"))
  simp only [← strAppend_assoc]
  rfl

theorem skipMessage_contains_size (n : Nat) :
    ContainsStr (skipMessage n) (formatBytes n) :=
  ⟨"Exceeds 40MB limit (", ")", rfl⟩

/-- One bulk-loop iteration appends exactly the denoted outcome, bumps the
matching counter, and calls the gateway exactly when shouldCall holds. -/
theorem bulkStep_eq (fs : String → Option Nat) (up : String → UploadResult)
    (b : BulkOperationResult) (c : List String) (p : String) :
    bulkStep fs up (b, c) p =
      ({ total := b.total,
         successful := b.successful +
           (if (itemOutcome fs up p).status = ItemStatus.success then 1 else 0),
         failed := b.failed +
           (if (itemOutcome fs up p).status = ItemStatus.failed then 1 else 0),
         skipped := b.skipped +
           (if (itemOutcome fs up p).status = ItemStatus.skipped then 1 else 0),
         results := b.results ++ [itemOutcome fs up p] },
       c ++ (if shouldCall fs p then [p] else [])) := by
  cases hfs : fs p with
  | none => simp [bulkStep, itemOutcome, shouldCall, hfs]
  | some size =>
    by_cases hsz : FILE_SIZE_LIMIT < size
    · simp [bulkStep, itemOutcome, shouldCall, hfs, hsz, Nat.not_le.mpr hsz]
    · have hle : size ≤ FILE_SIZE_LIMIT := Nat.not_lt.mp hsz
      by_cases hsu : (up p).success
      · simp [bulkStep, itemOutcome, shouldCall, hfs, hsz, hsu, hle]
      · simp [bulkStep, itemOutcome, shouldCall, hfs, hsz, hsu, hle]

/-- Full characterization of the bulk fold: the summary grows by exactly the
per-candidate outcomes, in input order, and the gateway-call list is the
filter of candidates passing the existence and size checks. -/
theorem foldl_bulkStep_eq (fs : String → Option Nat)
    (up : String → UploadResult) (paths : List String)
    (b : BulkOperationResult) (c : List String) :
    paths.foldl (bulkStep fs up) (b, c) =
      ({ total := b.total,
         successful := b.successful +
           countStatus ItemStatus.success (paths.map (itemOutcome fs up)),
         failed := b.failed +
           countStatus ItemStatus.failed (paths.map (itemOutcome fs up)),
         skipped := b.skipped +
           countStatus ItemStatus.skipped (paths.map (itemOutcome fs up)),
         results := b.results ++ paths.map (itemOutcome fs up) },
       c ++ paths.filter (shouldCall fs)) := by
  induction paths generalizing b c with
  | nil => simp [countStatus]
  | cons p ps ih =>
    rw [List.foldl_cons, bulkStep_eq, ih]
    refine Prod.ext ?_ ?_
    · ext
      · rfl
      · simp [countStatus, List.countP_cons]
        omega
      · simp [countStatus, List.countP_cons]
        omega
      · simp [countStatus, List.countP_cons]
        omega
      · simp
    · by_cases hc : shouldCall fs p <;> simp [hc, List.filter_cons]

theorem runBulk_results (fs : String → Option Nat)
    (up : String → UploadResult) (paths : List String) :
    (runBulk fs up paths).1.results = paths.map (itemOutcome fs up) := by
  rw [runBulk, foldl_bulkStep_eq]
  simp

theorem runBulk_calls (fs : String → Option Nat)
    (up : String → UploadResult) (paths : List String) :
    (runBulk fs up paths).2 = paths.filter (shouldCall fs) := by
  rw [runBulk, foldl_bulkStep_eq]
  simp

theorem runBulk_total (fs : String → Option Nat)
    (up : String → UploadResult) (paths : List String) :
    (runBulk fs up paths).1.total = paths.length := by
  rw [runBulk, foldl_bulkStep_eq]

theorem runBulk_counters (fs : String → Option Nat)
    (up : String → UploadResult) (paths : List String) :
    (runBulk fs up paths).1.successful =
        countStatus ItemStatus.success (runBulk fs up paths).1.results ∧
      (runBulk fs up paths).1.failed =
        countStatus ItemStatus.failed (runBulk fs up paths).1.results ∧
      (runBulk fs up paths).1.skipped =
        countStatus ItemStatus.skipped (runBulk fs up paths).1.results := by
  rw [runBulk, foldl_bulkStep_eq]
  simp

/-- The directory loop is the bulk loop over a filesystem in which every
enumerated file exists. -/
theorem runDir_eq_runBulk (sizeFn : String → Nat) (up : String → UploadResult)
    (files : List String) :
    runDir sizeFn up files = runBulk (fun p => some (sizeFn p)) up files := rfl

theorem itemOutcome_path (fs : String → Option Nat)
    (up : String → UploadResult) (p : String) :
    (itemOutcome fs up p).path = p := by
  simp only [itemOutcome]
  cases fs p with
  | none => rfl
  | some size =>
    by_cases hsz : FILE_SIZE_LIMIT < size
    · simp [hsz]
    · by_cases hsu : (up p).success <;> simp [hsz, hsu]

/-- Every recorded outcome carries exactly one of the three statuses. -/
theorem countStatus_sum (rs : List ItemResult) :
    countStatus ItemStatus.success rs + countStatus ItemStatus.failed rs +
      countStatus ItemStatus.skipped rs = rs.length := by
  induction rs with
  | nil => simp [countStatus]
  | cons r rs ih =>
    simp only [countStatus, List.countP_cons] at *
    cases h : r.status <;> simp [h] <;> omega

theorem getD_map_of_lt {α β : Type} (f : α → β) (l : List α) (i : Nat)
    (hi : i < l.length) (d : α) (e : β) :
    (l.map f).getD i e = f (l.getD i d) := by
  induction l generalizing i with
  | nil => simp at hi
  | cons a l ih =>
    cases i with
    | zero => simp [List.getD]
    | succ j =>
      simp only [List.length_cons, Nat.succ_lt_succ_iff] at hi
      simpa [List.getD] using ih j hi

theorem getD_mem_of_lt {α : Type} (l : List α) (i : Nat)
    (hi : i < l.length) (d : α) : l.getD i d ∈ l := by
  induction l generalizing i with
  | nil => simp at hi
  | cons a l ih =>
    cases i with
    | zero => simp [List.getD]
    | succ j =>
      simp only [List.length_cons, Nat.succ_lt_succ_iff] at hi
      exact List.mem_cons_of_mem a (by simpa [List.getD] using ih j hi)

/-! ## Claims -/

/-- Claim C1: for every batch run of iagon_bulk_upload or
iagon_upload_directory, the returned summary satisfies
total = successful + failed + skipped, total equals the number of input
candidates, the outcomes list has exactly one entry per candidate, and the
outcome order matches the input order of candidates; no single item failure
or skip stops processing of later candidates, since every candidate
contributes exactly one outcome to the final list. -/
theorem C1_batch_summary_invariants (fs : String → Option Nat)
    (sizeFn : String → Nat) (up : String → UploadResult)
    (paths files : List String) :
    ((runBulk fs up paths).1.total = paths.length ∧
      (runBulk fs up paths).1.successful + (runBulk fs up paths).1.failed +
        (runBulk fs up paths).1.skipped = (runBulk fs up paths).1.total ∧
      (runBulk fs up paths).1.results.length = paths.length ∧
      (runBulk fs up paths).1.results.map ItemResult.path = paths) ∧
    ((runDir sizeFn up files).1.total = files.length ∧
      (runDir sizeFn up files).1.successful + (runDir sizeFn up files).1.failed +
        (runDir sizeFn up files).1.skipped = (runDir sizeFn up files).1.total ∧
      (runDir sizeFn up files).1.results.length = files.length ∧
      (runDir sizeFn up files).1.results.map ItemResult.path = files) := by
  have main : ∀ (g : String → Option Nat) (ps : List String),
      (runBulk g up ps).1.total = ps.length ∧
      (runBulk g up ps).1.successful + (runBulk g up ps).1.failed +
        (runBulk g up ps).1.skipped = (runBulk g up ps).1.total ∧
      (runBulk g up ps).1.results.length = ps.length ∧
      (runBulk g up ps).1.results.map ItemResult.path = ps := by
    intro g ps
    have hr := runBulk_results g up ps
    have hc := runBulk_counters g up ps
    have ht := runBulk_total g up ps
    have hlen : (runBulk g up ps).1.results.length = ps.length := by
      rw [hr, List.length_map]
    refine ⟨ht, ?_, hlen, ?_⟩
    · rw [hc.1, hc.2.1, hc.2.2, countStatus_sum, hlen, ht]
    · rw [hr, List.map_map]
      have : ps.map (ItemResult.path ∘ itemOutcome g up) = ps.map id := by
        apply List.map_congr_left
        intro p _
        exact itemOutcome_path g up p
      rw [this, List.map_id]
  exact ⟨main fs paths, by rw [runDir_eq_runBulk]; exact main _ files⟩

/-- Claim C3: the size check compares the exact byte count against the
fixed limit 41943040: a candidate of exactly 41943040 bytes is not skipped
and reaches the upload call, a candidate of 41943041 bytes is recorded as
skipped without the upload call, and the skip message contains the
human-readable formatted size and the word limit. -/
theorem C3_size_boundary (fs : String → Option Nat)
    (up : String → UploadResult) (paths : List String) (i j : Nat)
    (hi : i < paths.length) (hj : j < paths.length)
    (hat : fs (paths.getD i "") = some FILE_SIZE_LIMIT)
    (hover : fs (paths.getD j "") = some (FILE_SIZE_LIMIT + 1)) :
    FILE_SIZE_LIMIT = 41943040 ∧
    (((runBulk fs up paths).1.results.getD i dummyItem).status ≠
        ItemStatus.skipped ∧
      paths.getD i "" ∈ (runBulk fs up paths).2) ∧
    ((runBulk fs up paths).1.results.getD j dummyItem =
        { path := paths.getD j "", status := ItemStatus.skipped,
          message := skipMessage (FILE_SIZE_LIMIT + 1), fileId := none } ∧
      paths.getD j "" ∉ (runBulk fs up paths).2 ∧
      ContainsStr (skipMessage (FILE_SIZE_LIMIT + 1)) "limit" ∧
      ContainsStr (skipMessage (FILE_SIZE_LIMIT + 1))
        (formatBytes (FILE_SIZE_LIMIT + 1))) := by
  have hr := runBulk_results fs up paths
  have hcalls := runBulk_calls fs up paths
  have hgetI : (runBulk fs up paths).1.results.getD i dummyItem =
      itemOutcome fs up (paths.getD i "") := by
    rw [hr]; exact getD_map_of_lt _ _ _ hi "" dummyItem
  have hgetJ : (runBulk fs up paths).1.results.getD j dummyItem =
      itemOutcome fs up (paths.getD j "") := by
    rw [hr]; exact getD_map_of_lt _ _ _ hj "" dummyItem
  refine ⟨by norm_num [FILE_SIZE_LIMIT], ⟨?_, ?_⟩, ?_, ?_, ?_, ?_⟩
  · rw [hgetI]
    simp only [itemOutcome, hat]
    rw [if_neg (Nat.lt_irrefl _)]
    by_cases hsu : (up (paths.getD i "")).success = true
    · rw [if_pos hsu]
      simp
    · rw [if_neg hsu]
      simp
  · rw [hcalls]
    refine List.mem_filter.mpr ⟨getD_mem_of_lt _ _ hi _, ?_⟩
    simp only [shouldCall, hat]
    simp
  · rw [hgetJ]
    simp only [itemOutcome, hover]
    rw [if_pos (Nat.lt_succ_self _)]
  · rw [hcalls]
    intro hmem
    have hpred := (List.mem_filter.mp hmem).2
    simp only [shouldCall, hover] at hpred
    simp at hpred
  · exact skipMessage_contains_limit _
  · exact skipMessage_contains_size _

theorem C3_size_boundary_witness :
    (runBulk fsBoundary upStub ["ok.mp4", "big.mp4"]).1.results.getD 1 dummyItem =
      { path := "big.mp4", status := ItemStatus.skipped,
        message := skipMessage (FILE_SIZE_LIMIT + 1), fileId := none } ∧
    "big.mp4" ∉ (runBulk fsBoundary upStub ["ok.mp4", "big.mp4"]).2 ∧
    "ok.mp4" ∈ (runBulk fsBoundary upStub ["ok.mp4", "big.mp4"]).2 := by
  have h := C3_size_boundary fsBoundary upStub ["ok.mp4", "big.mp4"] 0 1
    (by decide) (by decide) (by decide) (by decide)
  exact ⟨h.2.2.1, h.2.2.2.1, h.2.1.2⟩

/-- Claim C4: every candidate path of a bulk batch that does not exist as a
local file is recorded as Failed with message File not found, the failed
counter counts exactly the failed outcomes including it, and the gateway
upload function is never invoked for that path. -/
theorem C4_missing_path (fs : String → Option Nat)
    (up : String → UploadResult) (paths : List String) (i : Nat)
    (hi : i < paths.length) (hfs : fs (paths.getD i "") = none) :
    (runBulk fs up paths).1.results.getD i dummyItem =
      { path := paths.getD i "", status := ItemStatus.failed,
        message := "File not found", fileId := none } ∧
    paths.getD i "" ∉ (runBulk fs up paths).2 ∧
    (runBulk fs up paths).1.failed =
      countStatus ItemStatus.failed (runBulk fs up paths).1.results := by
  have hr := runBulk_results fs up paths
  refine ⟨?_, ?_, (runBulk_counters fs up paths).2.1⟩
  · rw [hr, getD_map_of_lt _ _ _ hi "" dummyItem]
    simp only [itemOutcome, hfs]
  · rw [runBulk_calls]
    intro hmem
    have hpred := (List.mem_filter.mp hmem).2
    simp only [shouldCall, hfs] at hpred
    simp at hpred

theorem C4_missing_path_witness :
    (runBulk fsNone upStub ["missing.mp4"]).1.results.getD 0 dummyItem =
      { path := "missing.mp4", status := ItemStatus.failed,
        message := "File not found", fileId := none } ∧
    "missing.mp4" ∉ (runBulk fsNone upStub ["missing.mp4"]).2 := by
  have h := C4_missing_path fsNone upStub ["missing.mp4"] 0 (by decide) rfl
  exact ⟨h.1, h.2.1⟩

/-- Claim C5: every page returned by listFiles or searchFiles has count
equal to the number of items, hasMore true exactly when
total exceeds offset plus count, and nextOffset defined exactly when
hasMore is true, in which case it equals offset plus count. -/
theorem C5_page_fields (raw : RawListResponse) (offset : Nat) :
    ((listFiles raw offset).count = (listFiles raw offset).items.length ∧
      ((listFiles raw offset).hasMore = true ↔
        (listFiles raw offset).offset + (listFiles raw offset).count <
          (listFiles raw offset).total) ∧
      (listFiles raw offset).nextOffset =
        (if (listFiles raw offset).hasMore = true then
          some ((listFiles raw offset).offset + (listFiles raw offset).count)
        else none)) ∧
    ((searchFiles raw offset).count = (searchFiles raw offset).items.length ∧
      ((searchFiles raw offset).hasMore = true ↔
        (searchFiles raw offset).offset + (searchFiles raw offset).count <
          (searchFiles raw offset).total) ∧
      (searchFiles raw offset).nextOffset =
        (if (searchFiles raw offset).hasMore = true then
          some ((searchFiles raw offset).offset + (searchFiles raw offset).count)
        else none)) := by
  constructor <;> exact ⟨rfl, by simp [listFiles, searchFiles],
    by simp [listFiles, searchFiles]⟩

/-- Claim C9: when the raw body carries no total field or a total of 0, the
returned total falls back to the item count of that response, which forces
hasMore to be false and nextOffset to be undefined regardless of the true
remote collection size. -/
theorem C9_total_fallback (raw : RawListResponse) (offset : Nat)
    (h : raw.total = none ∨ raw.total = some 0) :
    ((listFiles raw offset).total = (listFiles raw offset).items.length ∧
      (listFiles raw offset).hasMore = false ∧
      (listFiles raw offset).nextOffset = none) ∧
    ((searchFiles raw offset).total = (searchFiles raw offset).items.length ∧
      (searchFiles raw offset).hasMore = false ∧
      (searchFiles raw offset).nextOffset = none) := by
  have hlen : ¬ (offset + (rawItems raw).length < (rawItems raw).length) := by
    omega
  rcases h with h | h <;>
    exact ⟨⟨by simp [listFiles, h], by simp [listFiles, h, hlen],
            by simp [listFiles, h, hlen]⟩,
           ⟨by simp [searchFiles, h], by simp [searchFiles, h, hlen],
            by simp [searchFiles, h, hlen]⟩⟩

theorem C9_total_fallback_witness :
    (listFiles { files := none, items := none, total := none } 0).hasMore =
        false ∧
      (listFiles { files := none, items := none, total := none } 0).nextOffset =
        none ∧
      (searchFiles { files := none, items := none, total := none } 0).hasMore =
        false := by
  have h := C9_total_fallback { files := none, items := none, total := none } 0
    (Or.inl rfl)
  exact ⟨h.1.2.1, h.1.2.2, h.2.2.1⟩

/-- Claim C7: a limit outside 1..100 or a negative offset is rejected by
input validation before any remote call is made (the rejection holds for
every possible fetch function), while an omitted limit defaults to 20 and
an omitted offset defaults to 0, which are what the remote fetch receives. -/
theorem C7_pagination_validation (l o : Int) (folderId : Option String)
    (query : String) (fetchL : Option String → Int → Int → RawListResponse)
    (fetchS : String → Int → Int → RawListResponse) :
    ((l < 1 ∨ (100 : Int) < l ∨ o < 0) →
      isErrorResult (listFilesTool folderId (some l) (some o) fetchL) = true ∧
      isErrorResult (searchFilesTool query (some l) (some o) fetchS) = true) ∧
    DEFAULT_PAGE_LIMIT = 20 ∧ MAX_PAGE_LIMIT = 100 ∧
    listFilesTool folderId none none fetchL =
      Except.ok (listFiles (fetchL folderId 20 0) 0) ∧
    searchFilesTool query none none fetchS =
      Except.ok (searchFiles (fetchS query 20 0) 0) := by
  refine ⟨?_, rfl, rfl, rfl, rfl⟩
  intro h
  have hval : ∃ e, validatePagination (some l) (some o) = Except.error e := by
    by_cases h1 : l < 1
    · exact ⟨"Limit must be at least 1",
        by simp [validatePagination, parseLimit, h1]⟩
    · by_cases h2 : (100 : Int) < l
      · refine ⟨"Limit cannot exceed 100", ?_⟩
        simp only [validatePagination, parseLimit, if_neg h1]
        rw [if_pos (by simpa [MAX_PAGE_LIMIT] using h2)]
      · have ho : o < 0 := by
          rcases h with h | h | h
          · exact absurd h h1
          · exact absurd h h2
          · exact h
        refine ⟨"Offset cannot be negative", ?_⟩
        simp only [validatePagination, parseLimit, if_neg h1]
        rw [if_neg (by simpa [MAX_PAGE_LIMIT] using h2)]
        simp [parseOffset, ho]
  obtain ⟨e, he⟩ := hval
  exact ⟨by simp [listFilesTool, he, isErrorResult],
         by simp [searchFilesTool, he, isErrorResult]⟩

theorem C7_pagination_validation_witness :
    isErrorResult (listFilesTool none (some 101) (some 0) fetchStubL) = true ∧
      isErrorResult (searchFilesTool "q" (some 101) (some 0) fetchStubS) =
        true := by
  exact (C7_pagination_validation 101 0 none "q" fetchStubL fetchStubS).1
    (Or.inr (Or.inl (by norm_num)))

theorem notFoundMessage_contains (p : String) :
    ContainsStr (notFoundMessage p) "File not found" := by
  apply containsStr_intro _ "" "File not found" (": " ++ p)
  show "File not found: " ++ p = "" ++ ("File not found" ++ (": " ++ p))
  simp only [← strAppend_assoc]
  rfl

theorem oversizeMessage_contains_size (fn : String) (n : Nat) :
    ContainsStr (oversizeMessage fn n) (formatBytes n) :=
  ⟨"File " ++ fn ++ " (",
   ") exceeds Iagon\x27s 40MB limit. Consider compressing the video or splitting it into smaller segments.",
   rfl⟩

theorem oversizeMessage_contains_limit (fn : String) (n : Nat) :
    ContainsStr (oversizeMessage fn n) "40MB limit" := by
  apply containsStr_intro _
    ("File " ++ fn ++ " (" ++ formatBytes n ++ ") exceeds Iagon\x27s ")
    "40MB limit"
    ". Consider compressing the video or splitting it into smaller segments."
  show "File " ++ fn ++ " (" ++ formatBytes n ++
      ") exceeds Iagon\x27s 40MB limit. Consider compressing the video or splitting it into smaller segments." =
    "File " ++ fn ++ " (" ++ formatBytes n ++ ") exceeds Iagon\x27s " ++
      ("40MB limit" ++
        ". Consider compressing the video or splitting it into smaller segments.")
  have hlit : (") exceeds Iagon\x27s " : String) ++
      ("40MB limit" ++
        ". Consider compressing the video or splitting it into smaller segments.") =
      ") exceeds Iagon\x27s 40MB limit. Consider compressing the video or splitting it into smaller segments." := rfl
  conv_rhs => rw [strAppend_assoc, hlit]

/-- Claim C10: IagonClient.uploadFile itself re-validates the candidate
before any network call and never throws for a missing or oversize file: a
non-existent path yields a structured result with success false, fileSize 0
and a message containing File not found; an oversize file yields success
false with a message containing the formatted size and 40MB limit; in both
cases the POST to the gateway is never attempted. -/
theorem C10_client_side_checks (fs : String → Option Nat)
    (post : String → PostOutcome) (localPath : String)
    (remotePath : Option String) :
    (fs localPath = none →
      (clientUploadFile fs post localPath remotePath).1.success = false ∧
      (clientUploadFile fs post localPath remotePath).1.fileSize = 0 ∧
      ContainsStr (clientUploadFile fs post localPath remotePath).1.message
        "File not found" ∧
      (clientUploadFile fs post localPath remotePath).2 = false) ∧
    (∀ n, fs localPath = some n → FILE_SIZE_LIMIT < n →
      (clientUploadFile fs post localPath remotePath).1.success = false ∧
      ContainsStr (clientUploadFile fs post localPath remotePath).1.message
        (formatBytes n) ∧
      ContainsStr (clientUploadFile fs post localPath remotePath).1.message
        "40MB limit" ∧
      (clientUploadFile fs post localPath remotePath).2 = false) := by
  constructor
  · intro h
    simp only [clientUploadFile, h]
    exact ⟨trivial, trivial, notFoundMessage_contains localPath, trivial⟩
  · intro n hn hlt
    simp only [clientUploadFile, hn]
    rw [if_pos hlt]
    exact ⟨rfl, oversizeMessage_contains_size _ _,
      oversizeMessage_contains_limit _ _, rfl⟩

theorem C10_client_side_checks_witness :
    (clientUploadFile fsNone postStub "/tmp/missing.mp4" none).1.success =
        false ∧
      (clientUploadFile fsNone postStub "/tmp/missing.mp4" none).2 = false ∧
      (clientUploadFile fsOver postStub "/tmp/huge.mp4" none).1.success =
        false ∧
      (clientUploadFile fsOver postStub "/tmp/huge.mp4" none).2 = false := by
  have h1 := (C10_client_side_checks fsNone postStub "/tmp/missing.mp4" none).1
    rfl
  have h2 := (C10_client_side_checks fsOver postStub "/tmp/huge.mp4" none).2
    (FILE_SIZE_LIMIT + 1) rfl (Nat.lt_succ_self _)
  exact ⟨h1.1, h1.2.2.2, h2.1, h2.2.2.2⟩

/-- Claim C8: with recursive false, enumeration returns only files directly
inside the root directory (every returned path is the root joined with the
name of a direct file entry), and never paths from nested subdirectories;
with recursive true, everything enumerated inside a subdirectory entry is
included in the result for the parent. -/
theorem C8_recursion_flag (dirPath : String) (pattern : Option String)
    (entries : List FsEntry) :
    (∀ p ∈ getFilesFromDirectory dirPath false pattern entries,
      ∃ n s, FsEntry.file n s ∈ entries ∧ p = dirPath ++ "/" ++ n ∧
        patternOk pattern n = true) ∧
    (∀ name sub p, FsEntry.dir name sub ∈ entries →
      p ∈ getFilesFromDirectory (dirPath ++ "/" ++ name) true pattern sub →
      p ∈ getFilesFromDirectory dirPath true pattern entries) := by
  constructor
  · induction entries with
    | nil => simp [getFilesFromDirectory]
    | cons e rest ih =>
      intro p hp
      cases e with
      | dir nm sub =>
        simp only [getFilesFromDirectory, if_neg (by simp : ¬False),
          Bool.false_eq_true, List.nil_append] at hp
        obtain ⟨n, s, hmem, hpath, hpat⟩ := ih p (by simpa using hp)
        exact ⟨n, s, List.mem_cons_of_mem _ hmem, hpath, hpat⟩
      | file nm sz =>
        simp only [getFilesFromDirectory] at hp
        rcases List.mem_append.mp hp with hleft | hright
        · by_cases hpat : patternOk pattern nm = true
          · rw [if_pos hpat] at hleft
            exact ⟨nm, sz, List.mem_cons_self _ _,
              (List.mem_singleton.mp hleft), hpat⟩
          · rw [if_neg hpat] at hleft
            simp at hleft
        · obtain ⟨n, s, hmem, hpath, hpat⟩ := ih p hright
          exact ⟨n, s, List.mem_cons_of_mem _ hmem, hpath, hpat⟩
  · induction entries with
    | nil =>
      intro name sub p hmem
      simp at hmem
    | cons e rest ih =>
      intro name sub p hmem hp
      rcases List.mem_cons.mp hmem with he | he
      · subst he
        simp only [getFilesFromDirectory, if_pos rfl]
        exact List.mem_append_left _ hp
      · cases e with
        | dir nm2 sub2 =>
          simp only [getFilesFromDirectory]
          exact List.mem_append_right _ (ih name sub p he hp)
        | file nm2 sz2 =>
          simp only [getFilesFromDirectory]
          exact List.mem_append_right _ (ih name sub p he hp)

theorem C8_recursion_flag_witness :
    "/r/sub/a.mp4" ∈
      getFilesFromDirectory "/r" true none
        [FsEntry.dir "sub" [FsEntry.file "a.mp4" 5]] := by
  have h := (C8_recursion_flag "/r" none
    [FsEntry.dir "sub" [FsEntry.file "a.mp4" 5]]).2 "sub"
    [FsEntry.file "a.mp4" 5] "/r/sub/a.mp4" (by simp)
    (by simp [getFilesFromDirectory, patternOk])
  exact h

/-- Claim C6 as stated is false: when enumeration yields no candidate
files, iagon_upload_directory returns only the explanatory note; no
summary object (with total 0 or otherwise) is part of the response. -/
theorem C6_counterexample :
    (uploadDirectoryTool (DirNode.dir []) "/videos" false none (fun _ => 0)
        upStub).1 =
      DirOutput.noFiles "No files found in /videos" ∧
    DirOutput.isReport
      (uploadDirectoryTool (DirNode.dir []) "/videos" false none (fun _ => 0)
        upStub).1 = false := by
  constructor
  · simp [uploadDirectoryTool, getFilesFromDirectory, noFilesNote]
  · simp [uploadDirectoryTool, getFilesFromDirectory, DirOutput.isReport]

/-- Claim C6, amended: when the directory enumeration yields no candidate
files, the call short-circuits without invoking the orchestrator loop or
the gateway, and returns only a caller-visible explanatory note (No files
found in the directory, mentioning the pattern when one was supplied); it
does not return a summary object. -/
theorem C6_empty_enumeration (localDirectory : String) (recursive : Bool)
    (pattern : Option String) (sizeFn : String → Nat)
    (up : String → UploadResult) (entries : List FsEntry)
    (h : getFilesFromDirectory localDirectory recursive pattern entries = []) :
    uploadDirectoryTool (DirNode.dir entries) localDirectory recursive pattern
        sizeFn up =
      (DirOutput.noFiles (noFilesNote localDirectory pattern), []) := by
  simp [uploadDirectoryTool, h]

theorem C6_empty_enumeration_witness :
    uploadDirectoryTool (DirNode.dir []) "/videos" false (some "*.mp4")
        (fun _ => 0) upStub =
      (DirOutput.noFiles "No files found in /videos matching pattern \"*.mp4\"",
       []) := by
  have h := C6_empty_enumeration "/videos" false (some "*.mp4") (fun _ => 0)
    upStub [] (by simp [getFilesFromDirectory])
  rw [h]
  rfl

/-- Claim C2 evaluated on the code: the pattern star-dot-mp4 accepts
clip.MP4 case-insensitively as claimed, but it also accepts clip.mp4x,
because the translation to a regular expression neither escapes the dot nor
anchors the expression, and test performs an unanchored substring search;
a shell glob, which the tool documentation promises, would reject it. -/
theorem C2_glob_filter_eval :
    matchesPattern "*.mp4" "clip.MP4" = true ∧
    matchesPattern "*.mp4" "clip.mp4" = true ∧
    matchesPattern "*.mp4" "clip.mp4x" = true := by
  exact ⟨by decide, by decide, by decide⟩

end IagonMcp
